import Mathlib

/-!
Verification development for the nestjs-dependency-analyzer repository.

The development shallowly embeds the core of the analyzer:
  * the data model (`ModuleMetadata`, `ImportMetadata`, `ProviderMetadata`
    from src/types/modules.types.ts),
  * the decorator metadata extractor (`AstParser` from
    src/parsers/ast.parser.ts) over a model of the TypeScript AST,
  * the single-file enrichment pass (`enrichWithSecondLevelDependencies`,
    `getProviderDependencyTree`),
  * the cross-file graph linker (`DependencyAnalyzer.resolveModuleDependencies`
    and `findProviderByName` from src/analyzers/dependency.analyzer.ts),
  * the DOT renderer (`DotVisualizer.generate` from
    src/visualizers/dot.visualizer.ts).

TypeScript optional fields are modelled with `Option`; the JavaScript
`Map` caches are modelled as association lists looked up by first key
match (the analyzer only ever stores distinct keys); the mutable
per-parser `uniqueIdCounter` is threaded explicitly as a `Nat`.
-/

/-! ## Data model (src/types/modules.types.ts) -/

/-- The `type` field of `ProviderMetadata`: the string union
`'class' | 'value' | 'factory'` of the source. -/
inductive ProviderType where
  | classProvider
  | valueProvider
  | factoryProvider
deriving DecidableEq

/-- `ProviderMetadata` of modules.types.ts.  `useValue` has type `any` in the
source but the parser only ever stores the result of `getPropertyValue`
(a string or `undefined`) in it, so it is modelled as `Option String`. -/
structure ProviderMetadata where
  name : String
  type : ProviderType
  dependencies : List String
  isInjectable : Bool
  provide : Option String
  useClass : Option String
  useValue : Option String
  useFactory : Option String
  inject : Option (List String)
deriving DecidableEq

/-- The partial module snapshot stored in `ImportMetadata.module`.  The
source declares the field as `Partial<ModuleMetadata>` but the only writer
(`resolveModuleDependencies`) always stores exactly the three fields
`name`, `providers`, `controllers`. -/
structure ModuleSnapshot where
  name : String
  providers : List ProviderMetadata
  controllers : List String
deriving DecidableEq

/-- `ImportMetadata` of modules.types.ts. -/
structure ImportMetadata where
  name : String
  path : Option String
  isAsync : Option Bool
  dependencies : Option (List String)
  isForwardReference : Option Bool
  module : Option ModuleSnapshot
deriving DecidableEq

/-- `ModuleMetadata` of modules.types.ts. -/
structure ModuleMetadata where
  name : String
  filePath : Option String
  imports : List ImportMetadata
  exports : List String
  providers : List ProviderMetadata
  controllers : List String
  entityCount : Nat
deriving DecidableEq

/-! ## TypeScript AST model

Only the node shapes the parser inspects are distinguished; every other
expression shape is collapsed into `otherExpr` (the parser treats all of
them alike).  `ObjectProperty.otherProp` stands for shorthand properties,
spreads and computed-name properties, none of which pass the
`isPropertyAssignment`/`isIdentifier` tests of `findPropertyAssignment`. -/

mutual
inductive Expr where
  | ident (text : String)
  | strLit (text : String)
  | numLit (text : String)
  | call (callee : Expr) (args : List Expr)
  | propAccess (obj : Expr) (name : String)
  | objLit (props : List ObjectProperty)
  | arrayLit (elems : List Expr)
  | arrow (body : Expr)
  | otherExpr
inductive ObjectProperty where
  | assign (name : Expr) (initializer : Expr)
  | otherProp
end

/-- The `getText()` of a node.  It is exact on identifiers and property
accesses — the only shapes whose text the parser compares against fixed
dotted-identifier literals — and an approximation elsewhere; the
approximations can never collide with a dotted identifier because each
contains a character that cannot occur in one. -/
def Expr.getText : Expr → String
  | .ident text => text
  | .strLit text => "\x27" ++ text ++ "\x27"
  | .numLit text => text
  | .call callee _ => callee.getText ++ "(...)"
  | .propAccess obj name => obj.getText ++ "." ++ name
  | .objLit _ => "\x7b...\x7d"
  | .arrayLit _ => "[...]"
  | .arrow _ => "() => ..."
  | .otherExpr => "<expr>"

/-- A TypeScript type annotation: either a `TypeReferenceNode` (carrying
`typeName.getText()`) or anything else. -/
inductive TsType where
  | typeRef (typeNameText : String)
  | otherType
deriving DecidableEq

/-- A constructor parameter; `type` is its optional type annotation. -/
structure Parameter where
  type : Option TsType
deriving DecidableEq

/-- A class member: a constructor declaration or anything else. -/
inductive ClassMember where
  | constructorDecl (parameters : List Parameter)
  | otherMember
deriving DecidableEq

/-- A class declaration.  `decorators` models `ts.getDecorators` (an
absent decorator array and an empty one are indistinguishable to the
parser, which only ever searches the array).  Each decorator is the
decorator's `expression`. -/
structure ClassDeclaration where
  name : Option String
  decorators : List Expr
  members : List ClassMember

/-- Named bindings of an import clause. -/
inductive NamedBindings where
  | namedImports (elements : List String)
  | namespaceImport (name : String)
deriving DecidableEq

/-- An import clause: optional default binding name plus optional named
bindings. -/
structure ImportClause where
  name : Option String
  namedBindings : Option NamedBindings
deriving DecidableEq

/-- A top-level `import` declaration. -/
structure ImportDeclaration where
  importClause : Option ImportClause
  moduleSpecifier : Expr

/-- A top-level statement, as far as the parser distinguishes them. -/
inductive Statement where
  | classDecl (decl : ClassDeclaration)
  | importDecl (decl : ImportDeclaration)
  | otherStmt

/-- A source file: `fileName` plus top-level `statements`. -/
structure SourceFile where
  fileName : String
  statements : List Statement

/-! ## AstParser (src/parsers/ast.parser.ts) -/

/-- `AstParser.findPropertyAssignment` (lines 366-371): the first property
of the object literal that is a `PropertyAssignment` whose name is an
identifier equal to `propertyName`.  Every caller uses only the
`initializer` of the found assignment, so the initializer is returned
directly. -/
def findPropertyAssignment (props : List ObjectProperty) (propertyName : String) : Option Expr :=
  props.findSome? (fun prop =>
    match prop with
    | .assign (.ident nameText) initializer =>
      if nameText == propertyName then some initializer else none
    | _ => none)

/-- `AstParser.getPropertyValue` (lines 373-384): the text of the
initializer when it is an identifier or a string literal, `undefined`
otherwise. -/
def getPropertyValue (props : List ObjectProperty) (propertyName : String) : Option String :=
  match findPropertyAssignment props propertyName with
  | none => none
  | some (.ident text) => some text
  | some (.strLit text) => some text
  | some _ => none

/-- `AstParser.getArrayPropertyValue` (lines 386-393): the identifier
texts of an array-literal initializer, `undefined` when the property is
missing or not an array literal. -/
def getArrayPropertyValue (props : List ObjectProperty) (propertyName : String) : Option (List String) :=
  match findPropertyAssignment props propertyName with
  | some (.arrayLit elements) =>
    some (elements.filterMap (fun element =>
      match element with
      | .ident text => some text
      | _ => none))
  | _ => none

/-- The predicate of `AstParser.findDecorator` (lines 22-35): the
decorator expression must be a call whose callee is an identifier or a
property access with the given name. -/
def decoratorMatches (name : String) (decorator : Expr) : Bool :=
  match decorator with
  | .call (.ident calleeText) _ => calleeText == name
  | .call (.propAccess _ propName) _ => propName == name
  | _ => false

/-- `AstParser.findDecorator` (lines 18-36).  Note that a decorator
without a call form (a bare `@Module`) never matches. -/
def findDecorator (node : ClassDeclaration) (name : String) : Option Expr :=
  node.decorators.find? (decoratorMatches name)

/-- `AstParser.hasDecorator` (lines 62-64). -/
def hasDecorator (node : ClassDeclaration) (name : String) : Bool :=
  (findDecorator node name).isSome

/-- `AstParser.findClassDeclaration` (lines 408-412). -/
def findClassDeclaration (sf : SourceFile) (className : String) : Option ClassDeclaration :=
  sf.statements.findSome? (fun stmt =>
    match stmt with
    | .classDecl decl => if decl.name == some className then some decl else none
    | _ => none)

/-- `AstParser.extractConstructorDependencies` (lines 414-423): the type
names of the first constructor member's parameters that carry a
`TypeReferenceNode` annotation, in parameter order. -/
def extractConstructorDependencies (node : ClassDeclaration) : List String :=
  let ctor := node.members.findSome? (fun member =>
    match member with
    | .constructorDecl parameters => some parameters
    | _ => none)
  match ctor with
  | none => []
  | some parameters =>
    parameters.filterMap (fun param =>
      match param.type with
      | some (.typeRef typeNameText) => some typeNameText
      | _ => none)

/-- `AstParser.isClassInjectable` (lines 425-428). -/
def isClassInjectable (sf : SourceFile) (className : String) : Bool :=
  match findClassDeclaration sf className with
  | some decl => hasDecorator decl "Injectable"
  | none => false

/-- The binding test of `AstParser.resolveImportPath` (lines 207-229):
does the import clause bind the given text as default, named or
namespace import? -/
def importClauseMatches (clause : ImportClause) (text : String) : Bool :=
  clause.name == some text ||
    (match clause.namedBindings with
     | some (.namedImports elements) => elements.contains text
     | some (.namespaceImport nsName) => nsName == text
     | none => false)

/-- `AstParser.resolveImportPath` (lines 206-240): find the first import
declaration binding the identifier's text, return its string-literal
module specifier, rewriting `@nestjs/...` specifiers to their final path
segment. -/
def resolveImportPath (sf : SourceFile) (identifier : Expr) : Option String :=
  let text := identifier.getText
  let importDecl := sf.statements.findSome? (fun stmt =>
    match stmt with
    | .importDecl decl =>
      match decl.importClause with
      | some clause => if importClauseMatches clause text then some decl else none
      | none => none
    | _ => none)
  match importDecl with
  | some decl =>
    match decl.moduleSpecifier with
    | .strLit path =>
      if path.startsWith "@nestjs/" then some ((path.splitOn "/").getLastD "")
      else some path
    | _ => none
  | none => none

/-- `AstParser.generateUniqueName` (lines 14-16): mints
`<pfx>_<counter>` and post-increments the counter. -/
def generateUniqueName (pfx : String) (counter : Nat) : String × Nat :=
  (pfx ++ "_" ++ toString counter, counter + 1)

/-- `AstParser.createImportMetadata` (lines 197-204). -/
def createImportMetadata (sf : SourceFile) (text : String) : ImportMetadata :=
  { name := text,
    path := resolveImportPath sf (.ident text),
    isAsync := some false,
    dependencies := some [],
    isForwardReference := none,
    module := none }

/-- `AstParser.createUnknownImport` (lines 430-436): a placeholder import
named `UnknownModule_<counter>`; the counter is post-incremented. -/
def createUnknownImport (counter : Nat) : ImportMetadata × Nat :=
  ({ name := "UnknownModule_" ++ toString counter,
     path := none,
     isAsync := some false,
     dependencies := some [],
     isForwardReference := none,
     module := none }, counter + 1)

/-- `AstParser.parseAsyncImport` (lines 242-282), applied to a call
expression from the imports array. -/
def parseAsyncImport (sf : SourceFile) (callExpr : Expr) (counter : Nat) : ImportMetadata × Nat :=
  match callExpr with
  | .call (.ident calleeText) args =>
    if calleeText == "forwardRef" then
      match args.head? with
      | some (.arrow (.ident returnText)) =>
        ({ name := returnText,
           path := resolveImportPath sf (.ident returnText),
           isAsync := some true,
           dependencies := some [],
           isForwardReference := some true,
           module := none }, counter)
      | _ => createUnknownImport counter
    else
      ({ name := calleeText,
         path := resolveImportPath sf (.ident calleeText),
         isAsync := some true,
         dependencies := some [],
         isForwardReference := none,
         module := none }, counter)
  | .call (.propAccess obj _) _ =>
    ({ name := obj.getText,
       path := resolveImportPath sf obj,
       isAsync := some true,
       dependencies := some [],
       isForwardReference := none,
       module := none }, counter)
  | _ => createUnknownImport counter

/-- The element-wise body of `AstParser.extractImports` (lines 126-136):
a bare identifier yields a simple import, a call expression is handed to
`parseAsyncImport`, anything else yields a placeholder. -/
def parseImportElement (sf : SourceFile) (element : Expr) (counter : Nat) : ImportMetadata × Nat :=
  match element with
  | .ident text => (createImportMetadata sf text, counter)
  | .call callee args => parseAsyncImport sf (.call callee args) counter
  | _ => createUnknownImport counter

/-- Left-to-right traversal of the imports array threading the unique-id
counter (the source's `elements.map` with closures mutating
`this.uniqueIdCounter`). -/
def extractImportsList (sf : SourceFile) : List Expr → Nat → List ImportMetadata × Nat
  | [], counter => ([], counter)
  | element :: rest, counter =>
    let (imp, counter1) := parseImportElement sf element counter
    let (imps, counter2) := extractImportsList sf rest counter1
    (imp :: imps, counter2)

/-- `AstParser.extractImports` (lines 120-137). -/
def extractImports (sf : SourceFile) (props : List ObjectProperty) (counter : Nat) : List ImportMetadata × Nat :=
  match findPropertyAssignment props "imports" with
  | some (.arrayLit elements) => extractImportsList sf elements counter
  | _ => ([], counter)

/-- One `X.forFeature([...])` check of `AstParser.extractEntityCount`:
the callee must be a property access whose full text equals `fullName`
and whose first argument is an array literal, contributing that array's
length. -/
def forFeatureEntityCount (fullName : String) (callee : Expr) (args : List Expr) : Nat :=
  match callee with
  | .propAccess _ _ =>
    if callee.getText == fullName then
      match args.head? with
      | some (.arrayLit entityArray) => entityArray.length
      | _ => 0
    else 0
  | _ => 0

/-- The `TypeOrmModule.forRoot({ entities: [...] })` check of
`AstParser.extractEntityCount` (lines 160-169): the callee must be a
property access whose object text is `TypeOrmModule` and whose first
argument is an object literal with an array-literal `entities` property. -/
def forRootEntityCount (callee : Expr) (args : List Expr) : Nat :=
  match callee with
  | .propAccess objExpr _ =>
    if objExpr.getText == "TypeOrmModule" then
      match args.head? with
      | some (.objLit config) =>
        match findPropertyAssignment config "entities" with
        | some (.arrayLit entities) => entities.length
        | _ => 0
      | _ => 0
    else 0
  | _ => 0

/-- The per-element contribution of the `extractEntityCount` loop
(lines 147-193).  The four checks are sequential (not exclusive) `if`s
in the source, so the contributions add. -/
def elementEntityCount (element : Expr) : Nat :=
  match element with
  | .call callee args =>
    forFeatureEntityCount "TypeOrmModule.forFeature" callee args +
    forRootEntityCount callee args +
    forFeatureEntityCount "MongooseModule.forFeature" callee args +
    forFeatureEntityCount "SequelizeModule.forFeature" callee args
  | _ => 0

/-- `AstParser.extractEntityCount` (lines 139-195). -/
def extractEntityCount (props : List ObjectProperty) : Nat :=
  match findPropertyAssignment props "imports" with
  | some (.arrayLit elements) => (elements.map elementEntityCount).sum
  | _ => 0

/-- JavaScript truthiness of a `string | undefined` value: `undefined`
and the empty string are falsy. -/
def truthy (value : Option String) : Bool :=
  match value with
  | some s => s != ""
  | none => false

/-- The identifier texts of array elements
(`elements.filter(ts.isIdentifier).map(id => id.text)`). -/
def identifierTexts (elements : List Expr) : List String :=
  elements.filterMap (fun element =>
    match element with
    | .ident text => some text
    | _ => none)

/-- `AstParser.extractExports` (lines 283-290). -/
def extractExports (props : List ObjectProperty) : List String :=
  match findPropertyAssignment props "exports" with
  | some (.arrayLit elements) => identifierTexts elements
  | _ => []

/-- `AstParser.extractControllers` (lines 292-299). -/
def extractControllers (props : List ObjectProperty) : List String :=
  match findPropertyAssignment props "controllers" with
  | some (.arrayLit elements) => identifierTexts elements
  | _ => []

/-- `AstParser.createProviderMetadata` (lines 395-406): a bare-identifier
provider element. -/
def createProviderMetadata (sf : SourceFile) (text : String) : ProviderMetadata :=
  let classDecl := findClassDeclaration sf text
  { name := text,
    type := ProviderType.classProvider,
    dependencies :=
      match classDecl with
      | some decl => extractConstructorDependencies decl
      | none => [],
    isInjectable :=
      match classDecl with
      | some decl => hasDecorator decl "Injectable"
      | none => false,
    provide := some text,
    useClass := none,
    useValue := none,
    useFactory := none,
    inject := none }

/-- `AstParser.parseProviderObjectLiteral` (lines 326-364).  The source
tests `if (!provide)`, `if (useClass)` and `else if (useFactory)` by
JavaScript truthiness of the extracted string (so an extracted empty
string behaves like an absent field), but `useValue` with the explicit
`useValue !== undefined` test. -/
def parseProviderObjectLiteral (sf : SourceFile) (props : List ObjectProperty) : Option ProviderMetadata :=
  let provideOpt := getPropertyValue props "provide"
  if truthy provideOpt then
    let provide := provideOpt.getD ""
    let useClass := getPropertyValue props "useClass"
    let useValue := getPropertyValue props "useValue"
    let useFactory := getPropertyValue props "useFactory"
    let typeAndDeps : ProviderType × List String :=
      if truthy useClass then
        (ProviderType.classProvider,
         match findClassDeclaration sf (useClass.getD "") with
         | some classDecl => extractConstructorDependencies classDecl
         | none => [])
      else if truthy useFactory then
        (ProviderType.factoryProvider, (getArrayPropertyValue props "inject").getD [])
      else if useValue.isSome then
        (ProviderType.valueProvider, [])
      else
        (ProviderType.classProvider, [])
    some { name := provide,
           type := typeAndDeps.1,
           dependencies := typeAndDeps.2,
           isInjectable :=
             match typeAndDeps.1 with
             | ProviderType.classProvider =>
               isClassInjectable sf (if truthy useClass then useClass.getD "" else provide)
             | _ => false,
           provide := some provide,
           useClass := useClass,
           useValue := useValue,
           useFactory := useFactory,
           inject := some typeAndDeps.2 }
  else none

/-- `AstParser.parseProvider` (lines 312-324). -/
def parseProvider (sf : SourceFile) (element : Expr) : Option ProviderMetadata :=
  match element with
  | .ident text => some (createProviderMetadata sf text)
  | .objLit props => parseProviderObjectLiteral sf props
  | _ => none

/-- `AstParser.extractProviders` (lines 301-310): parse each element and
drop the `null` results. -/
def extractProviders (sf : SourceFile) (props : List ObjectProperty) : List ProviderMetadata :=
  match findPropertyAssignment props "providers" with
  | some (.arrayLit elements) => elements.filterMap (parseProvider sf)
  | _ => []

/-- `AstParser.createEmptyModuleMetadata` (lines 438-447). -/
def createEmptyModuleMetadata (counter : Nat) : ModuleMetadata × Nat :=
  let (name, counter1) := generateUniqueName "Module" counter
  ({ name := name,
     filePath := none,
     imports := [],
     exports := [],
     providers := [],
     controllers := [],
     entityCount := 0 }, counter1)

/-- `AstParser.parseModuleDecorator` (lines 66-86).  `findDecorator`
only ever returns call-form decorators, so a `@Module` without a call
form falls into the first fallback. -/
def parseModuleDecorator (sf : SourceFile) (node : ClassDeclaration) (counter : Nat) : ModuleMetadata × Nat :=
  match findDecorator node "Module" with
  | some (.call _ args) =>
    match args.head? with
    | some (.objLit props) =>
      let (name, counter1) :=
        match node.name with
        | some text => (text, counter)
        | none => generateUniqueName "Module" counter
      let (imports, counter2) := extractImports sf props counter1
      ({ name := name,
         filePath := some sf.fileName,
         imports := imports,
         exports := extractExports props,
         providers := extractProviders sf props,
         controllers := extractControllers props,
         entityCount := extractEntityCount props }, counter2)
    | _ => createEmptyModuleMetadata counter
  | _ => createEmptyModuleMetadata counter

/-! ## Single-file enrichment (ast.parser.ts lines 88-118)

The per-parser `moduleCache` and `providerCache` maps are modelled as
association lists looked up by first key match. -/

/-- Lookup in a cache map. -/
def cacheLookup {α : Type} (cache : List (String × α)) (key : String) : Option α :=
  (cache.find? (fun entry => entry.1 == key)).map (fun entry => entry.2)

/-- `AstParser.getModuleDependencies` (lines 100-105). -/
def getModuleDependencies (moduleCache : List (String × ModuleMetadata)) (moduleName : String) : List String :=
  match cacheLookup moduleCache moduleName with
  | none => []
  | some cachedModule =>
    cachedModule.imports.map (fun imp => imp.name) ++
      cachedModule.providers.map (fun prov => prov.name)

/-- First-occurrence deduplication, the behaviour of the JavaScript
`[...new Set(list)]` idiom. -/
def jsSetDedupAux : List String → List String → List String
  | [], _ => []
  | x :: xs, seen =>
    if seen.contains x then jsSetDedupAux xs seen
    else x :: jsSetDedupAux xs (x :: seen)

/-- `[...new Set(list)]`. -/
def jsSetDedup (l : List String) : List String := jsSetDedupAux l []

mutual
/-- `AstParser.getProviderDependencyTree` (lines 107-118), instrumented
with explicit fuel: `none` means the fuel ran out before the recursion
finished.  The JavaScript `visited` set is passed through by reference
(shared across the `flatMap` siblings), so it is threaded through the
result here.  The fuel-adequacy theorem below shows that
`newKeyCount cache visited + 1` fuel always suffices, which is exactly
the termination argument for the unbounded source recursion. -/
def gpdtFuel : Nat → List (String × ProviderMetadata) → String → List String → Option (List String × List String)
  | 0, _, _, _ => none
  | fuel + 1, cache, providerName, visited =>
    if visited.contains providerName then some ([], visited)
    else
      let visited1 := providerName :: visited
      match cacheLookup cache providerName with
      | none => some ([], visited1)
      | some provider =>
        match gpdtFuelList fuel cache provider.dependencies visited1 with
        | none => none
        | some (nestedDeps, visited2) =>
          some (jsSetDedup (provider.dependencies ++ nestedDeps), visited2)
termination_by fuel _ _ _ => (fuel, 0)

/-- The `directDeps.flatMap((dep) => this.getProviderDependencyTree(dep, visited))`
of line 115, threading the shared visited set left to right. -/
def gpdtFuelList : Nat → List (String × ProviderMetadata) → List String → List String → Option (List String × List String)
  | _, _, [], visited => some ([], visited)
  | fuel, cache, dep :: rest, visited =>
    match gpdtFuel fuel cache dep visited with
    | none => none
    | some (deps1, visited1) =>
      match gpdtFuelList fuel cache rest visited1 with
      | none => none
      | some (deps2, visited2) => some (deps1 ++ deps2, visited2)
termination_by fuel _ l _ => (fuel, l.length + 1)
end

/-- The number of cache keys not yet visited: an upper bound on how many
times the recursion of `getProviderDependencyTree` can still descend. -/
def newKeyCount (cache : List (String × ProviderMetadata)) (visited : List String) : Nat :=
  ((cache.map (fun entry => entry.1)).filter (fun key => !(visited.contains key))).length

/-- `AstParser.getProviderDependencyTree`, total form: run the fuelled
recursion with fuel the adequacy theorem proves sufficient. -/
def getProviderDependencyTree (cache : List (String × ProviderMetadata)) (providerName : String) (visited : List String) : List String × List String :=
  (gpdtFuel (newKeyCount cache visited + 1) cache providerName visited).getD ([], visited)

/-- `AstParser.enrichWithSecondLevelDependencies` (lines 88-98); the
provider tree starts from an empty visited set (the `new Set()` default
argument). -/
def enrichWithSecondLevelDependencies (moduleCache : List (String × ModuleMetadata)) (providerCache : List (String × ProviderMetadata)) (module : ModuleMetadata) : ModuleMetadata :=
  { module with
    imports := module.imports.map (fun importMeta =>
      { importMeta with dependencies := some (getModuleDependencies moduleCache importMeta.name) }),
    providers := module.providers.map (fun provider =>
      { provider with dependencies := (getProviderDependencyTree providerCache provider.name []).1 }) }

/-! ## Cross-file graph linker (src/analyzers/dependency.analyzer.ts)

The analyzer's `Map<string, ModuleMetadata>` is modelled as the list of
its values in insertion order (each value is registered under its own
`name`, so the keys are recoverable and unique). -/

/-- `DependencyAnalyzer.findProviderByName` (lines 85-91): scan the
modules in mapping order; inside each module take the first provider
whose `name` or `provide` equals the searched name. -/
def findProviderByName : List ModuleMetadata → String → Option ProviderMetadata
  | [], _ => none
  | module :: rest, name =>
    match module.providers.find? (fun p => p.name == name || p.provide == some name) with
    | some provider => some provider
    | none => findProviderByName rest name

/-- One entry of the provider-dependency resolution (lines 77-82):
`this.findProviderByName(dep)?.name ?? dep`. -/
def resolveProviderDependencyEntry (modules : List ModuleMetadata) (dep : String) : String :=
  match findProviderByName modules dep with
  | some provider => provider.name
  | none => dep

/-- The provider half of `resolveModuleDependencies`: each dependency
entry is re-resolved through `findProviderByName`.  Only the
`dependencies` field is written. -/
def resolveProviderDeps (modules : List ModuleMetadata) (provider : ProviderMetadata) : ProviderMetadata :=
  { provider with
    dependencies := provider.dependencies.map (resolveProviderDependencyEntry modules) }

/-- The import half of `resolveModuleDependencies` (lines 59-73).  In
the source the snapshot stores the `importedModule.providers` array by
reference, and that same array's elements have their `dependencies`
re-assigned by the provider half of the very same pass before the run
ends; observed at the end of the pass (the only point the analyzer ever
reads it), the snapshot therefore holds the resolved providers, which is
what the value semantics here records.  `path` is overwritten with
`importedModule?.filePath`, which is `undefined` whenever the lookup
fails. -/
def linkImport (modules : List ModuleMetadata) (imp : ImportMetadata) : ImportMetadata :=
  match modules.find? (fun m => m.name == imp.name) with
  | some importedModule =>
    { imp with
      path := importedModule.filePath,
      module := some
        { name := importedModule.name,
          providers := importedModule.providers.map (resolveProviderDeps modules),
          controllers := importedModule.controllers } }
  | none => { imp with path := none, module := none }

/-- The per-module body of `resolveModuleDependencies` (lines 58-83). -/
def resolveModule (modules : List ModuleMetadata) (module : ModuleMetadata) : ModuleMetadata :=
  { module with
    imports := module.imports.map (linkImport modules),
    providers := module.providers.map (resolveProviderDeps modules) }

/-- `DependencyAnalyzer.resolveModuleDependencies` (lines 58-83): both
resolution passes over every module of the mapping.  `findProviderByName`
and the by-name module lookup read only fields the pass never writes
(`name`, `provide`, `filePath`, `controllers`), so the in-place
peer-by-peer mutation of the source is order-independent and equal to
this one-shot map. -/
def resolveModuleDependencies (modules : List ModuleMetadata) : List ModuleMetadata :=
  modules.map (resolveModule modules)

/-- All providers of the mapping, in the scan order of
`findProviderByName`. -/
def allProviders (modules : List ModuleMetadata) : List ProviderMetadata :=
  (modules.map (fun m => m.providers)).flatten

/-! ## DotVisualizer (src/visualizers/dot.visualizer.ts) -/

/-- `DotVisualizer.escapeName`. -/
def escapeName (name : String) : String := name.replace "\"" "\\\""

/-- `DotVisualizer.escapeLabel`. -/
def escapeLabel (label : String) : String :=
  (label.replace "\"" "\\\"").replace "\n" "\\n"

/-- One node statement of `DotVisualizer.generate` (lines 16-28). -/
def nodeLine (m : ModuleMetadata) : String :=
  "  \"" ++ escapeName m.name ++ "\" [label=\"" ++
    escapeLabel (m.name ++ "\\n" ++
      "Controllers: " ++ toString m.controllers.length ++ "\\n" ++
      "Providers: " ++ toString m.providers.length ++ "\\n" ++
      "Imports: " ++ toString m.imports.length ++ "\\n" ++
      "Entities: " ++ toString m.entityCount) ++ "\"];"

/-- The edge attribute list of an import edge (line 34): the distinct
dashed red style exactly when `imp.isForwardReference` is truthy. -/
def importEdgeStyle (imp : ImportMetadata) : String :=
  if imp.isForwardReference == some true then
    "[label=\"imports (forward ref)\", style=dashed, color=red]"
  else
    "[label=\"imports\"]"

/-- One import edge statement (line 36). -/
def importEdgeLine (moduleName : String) (imp : ImportMetadata) : String :=
  "  \"" ++ escapeName moduleName ++ "\" -> \"" ++ escapeName imp.name ++ "\" " ++
    importEdgeStyle imp ++ ";"

/-- The provider-dependency edge statements of one module (lines 41-47). -/
def providerEdgeLines (m : ModuleMetadata) : List String :=
  (m.providers.map (fun provider =>
    provider.dependencies.map (fun dep =>
      "  \"" ++ escapeName provider.name ++ "\" -> \"" ++ escapeName dep ++
        "\" [color=blue, style=dashed];"))).flatten

/-- The lines of `DotVisualizer.generate` (lines 6-52), in emission
order. -/
def generateLines (modules : List ModuleMetadata) : List String :=
  ["digraph \x7b", "  rankdir=LR;", "  node [shape=box, style=filled, fillcolor=lightgray];", ""] ++
    modules.map nodeLine ++ [""] ++
    (modules.map (fun m => m.imports.map (importEdgeLine m.name))).flatten ++
    (modules.map providerEdgeLines).flatten ++
    ["\x7d"]

/-- `DotVisualizer.generate`: the lines joined with newlines. -/
def generate (modules : List ModuleMetadata) : String :=
  String.intercalate "\n" (generateLines modules)

/-! ## Concrete instances used by witnesses and counterexamples -/

/-- A source file with no statements. -/
def sfEmpty : SourceFile := { fileName := "app.module.ts", statements := [] }

/-- Provider object literal `\x7b provide: 'TOKEN', useValue: 42 \x7d`. -/
def useValueNumProps : List ObjectProperty :=
  [ObjectProperty.assign (.ident "provide") (.strLit "TOKEN"),
   ObjectProperty.assign (.ident "useValue") (.numLit "42")]

/-- Provider object literal
`\x7b provide: 'TOKEN', useFactory: fn, inject: [X] \x7d`. -/
def propsFactory : List ObjectProperty :=
  [ObjectProperty.assign (.ident "provide") (.strLit "TOKEN"),
   ObjectProperty.assign (.ident "useFactory") (.ident "fn"),
   ObjectProperty.assign (.ident "inject") (.arrayLit [.ident "X"])]

/-- Provider object literal `\x7b provide: \x27\x27, useClass: Svc \x7d`,
whose `provide` value extracts to the empty string. -/
def emptyProvideProps : List ObjectProperty :=
  [ObjectProperty.assign (.ident "provide") (.strLit ""),
   ObjectProperty.assign (.ident "useClass") (.ident "Svc")]

/-- Module decorator argument whose imports array holds the malformed
call `forwardRef()` (no argument). -/
def badForwardRefProps : List ObjectProperty :=
  [ObjectProperty.assign (.ident "imports") (.arrayLit [Expr.call (.ident "forwardRef") []])]

/-- A named class carrying no decorators at all. -/
def noDecoratorClass : ClassDeclaration :=
  { name := some "AppModule", decorators := [], members := [] }

/-- The import produced for `forwardRef(() => C)`. -/
def fwdImp : ImportMetadata :=
  (parseAsyncImport sfEmpty (.call (.ident "forwardRef") [.arrow (.ident "C")]) 1).1

/-- A module holding `fwdImp` as its only import. -/
def fwdModule : ModuleMetadata :=
  { name := "AppModule", filePath := some "app.module.ts", imports := [fwdImp],
    exports := [], providers := [], controllers := [], entityCount := 0 }

/-- A class provider named `SvcA` depending on `SvcB`. -/
def svcA : ProviderMetadata :=
  { name := "SvcA", type := ProviderType.classProvider, dependencies := ["SvcB"],
    isInjectable := true, provide := some "SvcA", useClass := none, useValue := none,
    useFactory := none, inject := none }

/-- A class provider named `SvcB` with no dependencies. -/
def svcB : ProviderMetadata :=
  { name := "SvcB", type := ProviderType.classProvider, dependencies := [],
    isInjectable := true, provide := some "SvcB", useClass := none, useValue := none,
    useFactory := none, inject := none }

/-- An unlinked import of `ModuleB`. -/
def importOfB : ImportMetadata :=
  { name := "ModuleB", path := some "b.module", isAsync := some false,
    dependencies := some [], isForwardReference := none, module := none }

/-- A module importing `ModuleB` and providing `SvcA`. -/
def moduleA : ModuleMetadata :=
  { name := "ModuleA", filePath := some "a.module.ts", imports := [importOfB],
    exports := [], providers := [svcA], controllers := [], entityCount := 0 }

/-- A module providing `SvcB`. -/
def moduleB : ModuleMetadata :=
  { name := "ModuleB", filePath := some "b.module.ts", imports := [],
    exports := [], providers := [svcB], controllers := ["BController"], entityCount := 0 }

/-- A two-module mapping. -/
def modulesAB : List ModuleMetadata := [moduleA, moduleB]

/-- A provider cache whose direct-dependency relation is cyclic:
`SvcA` depends on `SvcB` and `SvcB` back on `SvcA`. -/
def cyclicCache : List (String × ProviderMetadata) :=
  [("SvcA", svcA), ("SvcB", { svcB with dependencies := ["SvcA"] })]

/-- A module providing `SvcA`, to be enriched against `cyclicCache`. -/
def modForEnrich : ModuleMetadata :=
  { name := "ModuleM", filePath := none, imports := [], exports := [],
    providers := [svcA], controllers := [], entityCount := 0 }

/-- Three bare-identifier entity class references. -/
def entsThree : List Expr := [Expr.ident "EntityA", Expr.ident "EntityB", Expr.ident "EntityC"]

/-! ## Helper lemmas -/

/-- The module-by-module scan of `findProviderByName` is the first match
over the flattened provider list. -/
theorem findProviderByName_eq_find? (modules : List ModuleMetadata) (name : String) :
    findProviderByName modules name =
      (allProviders modules).find? (fun q => q.name == name || q.provide == some name) := by
  induction modules with
  | nil => rfl
  | cons m rest ih =>
    have hall : allProviders (m :: rest) = m.providers ++ allProviders rest := by
      simp [allProviders]
    rw [findProviderByName, hall, List.find?_append, ← ih]
    cases m.providers.find? (fun p => p.name == name || p.provide == some name) <;> simp

/-- C3: after cross-file provider dependency linking, every entry of every
Provider's dependencies list is the canonical `name` of the first Provider
— scanning all modules' provider lists in mapping order — whose `name` or
`provide` equals the original entry, and the original raw name unchanged
when no provider anywhere matches. -/
theorem providerDependencies_first_match (modules : List ModuleMetadata) :
    (resolveModuleDependencies modules).map (fun m => m.providers.map (fun p => p.dependencies)) =
      modules.map (fun m => m.providers.map (fun p => p.dependencies.map (fun dep =>
        match (allProviders modules).find? (fun q => q.name == dep || q.provide == some dep) with
        | some q => q.name
        | none => dep))) := by
  unfold resolveModuleDependencies resolveModule
  rw [List.map_map]
  apply List.map_congr_left
  intro m _
  simp only [Function.comp, List.map_map]
  apply List.map_congr_left
  intro p _
  simp only [Function.comp, resolveProviderDeps]
  apply List.map_congr_left
  intro dep _
  rw [resolveProviderDependencyEntry, findProviderByName_eq_find?]

/-- C7: a recognized `<Orm>Module.forFeature([...])` imports-array element
with a three-element array literal raises `entityCount` by exactly 3 over
the same imports array without it, and a call expression matching none of
the recognized registration forms contributes exactly 0. -/
theorem extractEntityCount_contribution
    (l1 l2 l1' l2' : List Expr) (x : String) (entities restArgs : List Expr)
    (callee : Expr) (args : List Expr)
    (hx : x = "TypeOrmModule" ∨ x = "MongooseModule" ∨ x = "SequelizeModule")
    (hlen : entities.length = 3)
    (hcallee : ∀ obj propName, callee = Expr.propAccess obj propName →
       ((Expr.propAccess obj propName).getText ≠ "TypeOrmModule.forFeature" ∧
        (Expr.propAccess obj propName).getText ≠ "MongooseModule.forFeature" ∧
        (Expr.propAccess obj propName).getText ≠ "SequelizeModule.forFeature" ∧
        obj.getText ≠ "TypeOrmModule")) :
    extractEntityCount [ObjectProperty.assign (.ident "imports")
        (.arrayLit (l1 ++ Expr.call (.propAccess (.ident x) "forFeature") (.arrayLit entities :: restArgs) :: l2))] =
      extractEntityCount [ObjectProperty.assign (.ident "imports") (.arrayLit (l1 ++ l2))] + 3 ∧
    extractEntityCount [ObjectProperty.assign (.ident "imports")
        (.arrayLit (l1' ++ Expr.call callee args :: l2'))] =
      extractEntityCount [ObjectProperty.assign (.ident "imports") (.arrayLit (l1' ++ l2'))] := by
  constructor
  · have helem : elementEntityCount
        (Expr.call (.propAccess (.ident x) "forFeature") (.arrayLit entities :: restArgs)) = 3 := by
      rcases hx with rfl | rfl | rfl <;>
        simp [elementEntityCount, forFeatureEntityCount, forRootEntityCount, Expr.getText, hlen]
    simp only [extractEntityCount, findPropertyAssignment, List.findSome?_cons]
    simp only [beq_self_eq_true, if_true, List.map_append, List.map_cons, List.sum_append,
      List.sum_cons, helem]
    omega
  · have helem : elementEntityCount (Expr.call callee args) = 0 := by
      cases callee with
      | propAccess obj propName =>
        obtain ⟨h1, h2, h3, h4⟩ := hcallee obj propName rfl
        simp [elementEntityCount, forFeatureEntityCount, forRootEntityCount, h1, h2, h3, h4]
      | ident t => rfl
      | strLit t => rfl
      | numLit t => rfl
      | call c a => rfl
      | objLit ps => rfl
      | arrayLit es => rfl
      | arrow b => rfl
      | otherExpr => rfl
    simp only [extractEntityCount, findPropertyAssignment, List.findSome?_cons]
    simp only [beq_self_eq_true, if_true, List.map_append, List.map_cons, List.sum_append,
      List.sum_cons, helem]
    omega

/-- C5: when the module decorator has no call form (so `findDecorator`
finds nothing) or its call has no object-literal first argument,
`parseModuleDecorator` yields the empty module record: all facet lists
empty, `entityCount` zero, no file path, and the generated placeholder
name `Module_<counter>` minted by bumping the unique-id counter.  The
function is total, so extraction cannot throw on such input. -/
theorem parseModuleDecorator_incomplete_empty (sf : SourceFile) (node : ClassDeclaration) (counter : Nat)
    (h : findDecorator node "Module" = none ∨
         ∃ callee args, findDecorator node "Module" = some (Expr.call callee args) ∧
           ∀ props, args.head? ≠ some (Expr.objLit props)) :
    parseModuleDecorator sf node counter =
      ({ name := "Module_" ++ toString counter, filePath := none, imports := [], exports := [],
         providers := [], controllers := [], entityCount := 0 }, counter + 1) := by
  rcases h with h | ⟨callee, args, hfind, hobj⟩
  · rw [parseModuleDecorator, h]
    rfl
  · rw [parseModuleDecorator, hfind]
    cases harg : args.head? with
    | none =>
      (simp only [harg]; rfl)
    | some e =>
      cases e with
      | objLit props => exact absurd harg (hobj props)
      | ident t => (simp only [harg]; rfl)
      | strLit t => (simp only [harg]; rfl)
      | numLit t => (simp only [harg]; rfl)
      | call c a => (simp only [harg]; rfl)
      | propAccess o n => (simp only [harg]; rfl)
      | arrayLit es => (simp only [harg]; rfl)
      | arrow b => (simp only [harg]; rfl)
      | otherExpr => (simp only [harg]; rfl)

/-- Witness for C5 at a class with no decorators. -/
theorem parseModuleDecorator_incomplete_empty_witness :
    parseModuleDecorator sfEmpty noDecoratorClass 5 =
      ({ name := "Module_5", filePath := none, imports := [], exports := [],
         providers := [], controllers := [], entityCount := 0 }, 6) :=
  parseModuleDecorator_incomplete_empty sfEmpty noDecoratorClass 5 (Or.inl rfl)

/-- Counterexample to C4: the object literal
`\x7b provide: 'TOKEN', useValue: 42 \x7d` declares only the static-value
binding field, yet the provider is typed `class`, not `value` — the
source tests `useValue !== undefined` on the *extracted* value, and
`getPropertyValue` extracts `undefined` from a numeric literal. -/
theorem parseProviderObjectLiteral_useValue_counterexample :
    (parseProviderObjectLiteral sfEmpty useValueNumProps).map (fun m => m.type) =
      some ProviderType.classProvider ∧
    ProviderType.classProvider ≠ ProviderType.valueProvider :=
  ⟨rfl, by decide⟩

/-- C4 (amended): an object-literal provider element without an
extractable nonempty `provide` value is discarded; otherwise the element
yields a provider named by the token, typed `class` when the `useClass`
field extracts to a nonempty string (dependencies from that class's
constructor), `factory` when `useFactory` extracts to a nonempty string
and `useClass` does not (dependencies from the `inject` list, default
empty), and `value` when only `useValue` extracts to a string — binding
fields whose values are not identifiers or string literals count as
absent, and the precedence remains class > factory > value. -/
theorem parseProviderObjectLiteral_binding_precedence (sf : SourceFile) (props : List ObjectProperty) :
    (getPropertyValue props "provide" = none → parseProviderObjectLiteral sf props = none) ∧
    (getPropertyValue props "provide" = some "" → parseProviderObjectLiteral sf props = none) ∧
    (∀ p, getPropertyValue props "provide" = some p → p ≠ "" →
      ((parseProviderObjectLiteral sf props).map (fun m => m.name) = some p) ∧
      ((parseProviderObjectLiteral sf props).map (fun m => m.provide) = some (some p)) ∧
      (truthy (getPropertyValue props "useClass") = true →
        (parseProviderObjectLiteral sf props).map (fun m => (m.type, m.dependencies)) =
          some (ProviderType.classProvider,
            match findClassDeclaration sf ((getPropertyValue props "useClass").getD "") with
            | some classDecl => extractConstructorDependencies classDecl
            | none => [])) ∧
      (truthy (getPropertyValue props "useClass") = false →
        truthy (getPropertyValue props "useFactory") = true →
        (parseProviderObjectLiteral sf props).map (fun m => (m.type, m.dependencies)) =
          some (ProviderType.factoryProvider, (getArrayPropertyValue props "inject").getD [])) ∧
      (truthy (getPropertyValue props "useClass") = false →
        truthy (getPropertyValue props "useFactory") = false →
        (getPropertyValue props "useValue").isSome = true →
        (parseProviderObjectLiteral sf props).map (fun m => (m.type, m.dependencies)) =
          some (ProviderType.valueProvider, []))) := by
  refine ⟨?_, ?_, ?_⟩
  · intro h
    rw [parseProviderObjectLiteral, h]
    rfl
  · intro h
    rw [parseProviderObjectLiteral, h]
    rfl
  · intro p hp hpne
    have htp : truthy (some p) = true := by
      simpa [truthy] using hpne
    refine ⟨?_, ?_, ?_, ?_, ?_⟩
    · simp [parseProviderObjectLiteral, hp, htp]
    · simp [parseProviderObjectLiteral, hp, htp]
    · intro hc
      simp [parseProviderObjectLiteral, hp, htp, hc]
    · intro hc hf
      simp [parseProviderObjectLiteral, hp, htp, hc, hf]
    · intro hc hf hv
      simp [parseProviderObjectLiteral, hp, htp, hc, hf, hv]

/-- Witness for C4 (amended) at the empty-string-token object literal
`\x7b provide: \x27\x27, useClass: Svc \x7d` (discarded) and at the
factory-provider object literal
`\x7b provide: 'TOKEN', useFactory: fn, inject: [X] \x7d`. -/
theorem parseProviderObjectLiteral_binding_precedence_witness :
    parseProviderObjectLiteral sfEmpty emptyProvideProps = none ∧
    (parseProviderObjectLiteral sfEmpty propsFactory).map (fun m => (m.type, m.dependencies)) =
      some (ProviderType.factoryProvider, ["X"]) := by
  constructor
  · exact (parseProviderObjectLiteral_binding_precedence sfEmpty emptyProvideProps).2.1 rfl
  · have h := (parseProviderObjectLiteral_binding_precedence sfEmpty propsFactory).2.2 "TOKEN" rfl
      (by decide)
    exact (h.2.2.2.1 rfl rfl).trans (by rfl)

/-- Counterexample to C8: the imports-array element `forwardRef()` is a
call expression, yet its Import record has `isAsync` set to `false` —
the malformed forward-reference wrapper falls back to the
`createUnknownImport` placeholder, which carries `isAsync: false`. -/
theorem extractImports_isAsync_counterexample :
    (extractImports sfEmpty badForwardRefProps 1).1.map (fun imp => imp.isAsync) = [some false] ∧
    some false ≠ some true :=
  ⟨rfl, by decide⟩

/-- C8 (amended): an imports-array element yields `isAsync = true`
exactly when it is a call expression that parses as a recognized
dynamic import — an identifier callee other than `forwardRef`, a
property-access callee, or a `forwardRef` call whose argument is an arrow
returning a bare identifier; bare identifiers yield `isAsync = false`
with an initially empty dependencies list, and malformed calls
(a `forwardRef` without such an argument, or a callee that is neither an
identifier nor a property access) yield placeholder imports with
`isAsync = false`. -/
theorem parseImportElement_isAsync_spec (sf : SourceFile) (counter : Nat) :
    (∀ text, (parseImportElement sf (.ident text) counter).1.isAsync = some false ∧
       (parseImportElement sf (.ident text) counter).1.dependencies = some []) ∧
    (∀ calleeText args, calleeText ≠ "forwardRef" →
       (parseImportElement sf (.call (.ident calleeText) args) counter).1.isAsync = some true) ∧
    (∀ obj propName args,
       (parseImportElement sf (.call (.propAccess obj propName) args) counter).1.isAsync = some true) ∧
    (∀ returnText args, args.head? = some (Expr.arrow (.ident returnText)) →
       (parseImportElement sf (.call (.ident "forwardRef") args) counter).1.isAsync = some true) ∧
    (∀ args, (∀ returnText, args.head? ≠ some (Expr.arrow (.ident returnText))) →
       (parseImportElement sf (.call (.ident "forwardRef") args) counter).1.isAsync = some false) ∧
    (∀ callee args, (∀ text, callee ≠ Expr.ident text) →
       (∀ obj propName, callee ≠ Expr.propAccess obj propName) →
       (parseImportElement sf (.call callee args) counter).1.isAsync = some false) := by
  refine ⟨fun text => ⟨rfl, rfl⟩, ?_, fun obj propName args => rfl, ?_, ?_, ?_⟩
  · intro calleeText args hne
    have hbeq : (calleeText == "forwardRef") = false := by
      simpa using hne
    simp only [parseImportElement, parseAsyncImport, hbeq, Bool.false_eq_true, if_false]
  · intro returnText args h
    simp only [parseImportElement, parseAsyncImport, beq_self_eq_true, if_true, h]
  · intro args h
    simp only [parseImportElement, parseAsyncImport, beq_self_eq_true, if_true]
    cases harg : args.head? with
    | none => rfl
    | some e =>
      cases e with
      | arrow body =>
        cases body with
        | ident returnText => exact absurd harg (h returnText)
        | strLit t => rfl
        | numLit t => rfl
        | call c a => rfl
        | propAccess o n => rfl
        | objLit ps => rfl
        | arrayLit es => rfl
        | arrow b => rfl
        | otherExpr => rfl
      | ident t => rfl
      | strLit t => rfl
      | numLit t => rfl
      | call c a => rfl
      | propAccess o n => rfl
      | objLit ps => rfl
      | arrayLit es => rfl
      | otherExpr => rfl
  · intro callee args h1 h2
    cases callee with
    | ident t => exact absurd rfl (h1 t)
    | propAccess o n => exact absurd rfl (h2 o n)
    | strLit t => rfl
    | numLit t => rfl
    | call c a => rfl
    | objLit ps => rfl
    | arrayLit es => rfl
    | arrow b => rfl
    | otherExpr => rfl

/-- Witness for C8 (amended) at one concrete element of each shape. -/
theorem parseImportElement_isAsync_spec_witness :
    (parseImportElement sfEmpty (.ident "UsersModule") 1).1.isAsync = some false ∧
    (parseImportElement sfEmpty (.call (.ident "ConfigModule") []) 1).1.isAsync = some true ∧
    (parseImportElement sfEmpty (.call (.propAccess (.ident "TypeOrmModule") "forRoot") []) 1).1.isAsync = some true ∧
    (parseImportElement sfEmpty (.call (.ident "forwardRef") [.arrow (.ident "C")]) 1).1.isAsync = some true ∧
    (parseImportElement sfEmpty (.call (.ident "forwardRef") []) 1).1.isAsync = some false ∧
    (parseImportElement sfEmpty (.call (.call (.ident "f") []) []) 1).1.isAsync = some false := by
  have h := parseImportElement_isAsync_spec sfEmpty 1
  exact ⟨(h.1 "UsersModule").1, h.2.1 "ConfigModule" [] (by decide), h.2.2.1 _ _ [],
    h.2.2.2.1 "C" _ rfl, h.2.2.2.2.1 [] (fun returnText => by simp),
    h.2.2.2.2.2 _ [] (fun text => by simp) (fun obj propName => by simp)⟩

/-- C6: a `forwardRef(() => C)` imports-array element yields an Import
named `C` with `isForwardReference` set, and whenever a module of the
rendered mapping carries that Import, the DOT renderer emits its edge
with the distinct dashed red forward-reference style (one of the
emitted lines is exactly that edge). -/
theorem forwardRef_import_and_dot_edge (sf : SourceFile) (c : String) (counter : Nat)
    (modules : List ModuleMetadata) (m : ModuleMetadata)
    (hm : m ∈ modules)
    (himp : (parseAsyncImport sf (.call (.ident "forwardRef") [.arrow (.ident c)]) counter).1 ∈ m.imports) :
    (parseAsyncImport sf (.call (.ident "forwardRef") [.arrow (.ident c)]) counter).1.name = c ∧
    (parseAsyncImport sf (.call (.ident "forwardRef") [.arrow (.ident c)]) counter).1.isForwardReference = some true ∧
    importEdgeStyle (parseAsyncImport sf (.call (.ident "forwardRef") [.arrow (.ident c)]) counter).1 =
      "[label=\"imports (forward ref)\", style=dashed, color=red]" ∧
    importEdgeLine m.name (parseAsyncImport sf (.call (.ident "forwardRef") [.arrow (.ident c)]) counter).1 ∈
      generateLines modules := by
  refine ⟨rfl, rfl, rfl, ?_⟩
  have hmem : importEdgeLine m.name
      (parseAsyncImport sf (.call (.ident "forwardRef") [.arrow (.ident c)]) counter).1 ∈
      (modules.map (fun mm => mm.imports.map (importEdgeLine mm.name))).flatten :=
    List.mem_flatten.mpr ⟨m.imports.map (importEdgeLine m.name),
      List.mem_map_of_mem _ hm, List.mem_map_of_mem _ himp⟩
  simp only [generateLines, List.append_assoc, List.mem_append]
  tauto

/-- Witness for C6 at the concrete element `forwardRef(() => C)` inside
a one-module mapping. -/
theorem forwardRef_import_and_dot_edge_witness :
    fwdImp.name = "C" ∧ fwdImp.isForwardReference = some true ∧
    importEdgeStyle fwdImp = "[label=\"imports (forward ref)\", style=dashed, color=red]" ∧
    importEdgeLine fwdModule.name fwdImp ∈ generateLines [fwdModule] :=
  forwardRef_import_and_dot_edge sfEmpty "C" 1 [fwdModule] fwdModule
    (List.mem_singleton.mpr rfl) (List.mem_singleton.mpr rfl)

/-! ## Termination and duplicate-freedom of the provider dependency tree -/

theorem not_mem_of_contains_eq_false {l : List String} {a : String}
    (h : l.contains a = false) : a ∉ l := by
  simpa using h

theorem length_filter_mono {α : Type} (l : List α) (p q : α → Bool)
    (h : ∀ a, p a = true → q a = true) : (l.filter p).length ≤ (l.filter q).length := by
  induction l with
  | nil => simp
  | cons a as ih =>
    simp only [List.filter_cons]
    cases hp : p a with
    | true =>
      rw [h a hp]
      simpa using Nat.succ_le_succ ih
    | false =>
      cases hq : q a with
      | true => simpa using Nat.le_succ_of_le ih
      | false => simpa using ih

theorem newKeyCount_cons_le (cache : List (String × ProviderMetadata)) (x : String)
    (visited : List String) :
    newKeyCount cache (x :: visited) ≤ newKeyCount cache visited := by
  apply length_filter_mono
  intro k hk
  simp only [List.contains_cons, Bool.not_eq_true', Bool.or_eq_false_iff] at hk
  simp [not_mem_of_contains_eq_false hk.2]

theorem filter_not_contains_strict (l : List String) (name : String) (visited : List String)
    (hmem : name ∈ l) (hvis : visited.contains name = false) :
    (l.filter (fun k => !((name :: visited).contains k))).length <
      (l.filter (fun k => !(visited.contains k))).length := by
  induction l with
  | nil => cases hmem
  | cons a as ih =>
    simp only [List.filter_cons]
    by_cases ha : a = name
    · subst ha
      have h1 : (!((a :: visited).contains a)) = false := by simp
      have h2 : (!(visited.contains a)) = true := by simp [not_mem_of_contains_eq_false hvis]
      rw [h1, h2]
      simp only [Bool.false_eq_true, if_false, if_true, List.length_cons]
      refine Nat.lt_succ_of_le (length_filter_mono _ _ _ ?_)
      intro k hk
      simp only [List.contains_cons, Bool.not_eq_true', Bool.or_eq_false_iff] at hk
      simp [not_mem_of_contains_eq_false hk.2]
    · have hmem' : name ∈ as := by
        rcases List.mem_cons.mp hmem with h | h
        · exact absurd h.symm ha
        · exact h
      have hc : ((name :: visited).contains a) = (visited.contains a) := by
        have hbeq : (a == name) = false := by simp [ha]
        rw [List.contains_cons, hbeq, Bool.false_or]
      rw [hc]
      cases hv : (!(visited.contains a)) with
      | true =>
        simp only [hv, if_true, List.length_cons]
        exact Nat.succ_lt_succ (ih hmem')
      | false =>
        simp only [hv, Bool.false_eq_true, if_false]
        exact ih hmem'

theorem cacheLookup_mem_keys (cache : List (String × ProviderMetadata)) (key : String)
    (provider : ProviderMetadata) (h : cacheLookup cache key = some provider) :
    key ∈ cache.map (fun entry => entry.1) := by
  unfold cacheLookup at h
  cases hfind : cache.find? (fun entry => entry.1 == key) with
  | none => rw [hfind] at h; cases h
  | some entry =>
    have hpred := List.find?_some hfind
    have hmem := List.mem_of_find?_eq_some hfind
    have hkey : entry.1 = key := by simpa using hpred
    rw [← hkey]
    exact List.mem_map_of_mem _ hmem

theorem newKeyCount_strict (cache : List (String × ProviderMetadata)) (name : String)
    (visited : List String) (provider : ProviderMetadata)
    (hlook : cacheLookup cache name = some provider) (hvis : visited.contains name = false) :
    newKeyCount cache (name :: visited) < newKeyCount cache visited :=
  filter_not_contains_strict _ name visited (cacheLookup_mem_keys _ _ _ hlook) hvis

/-- Fuel adequacy: `newKeyCount cache visited + 1` units of fuel always
let the instrumented recursion finish, and the visited set only grows
while the count of unvisited cache keys never increases. -/
theorem gpdtFuel_adequate (fuel : Nat) :
    (∀ cache providerName visited, newKeyCount cache visited < fuel →
      ∃ result finalVisited,
        gpdtFuel fuel cache providerName visited = some (result, finalVisited) ∧
        (∀ x, x ∈ visited → x ∈ finalVisited) ∧
        newKeyCount cache finalVisited ≤ newKeyCount cache visited) ∧
    (∀ cache deps visited, newKeyCount cache visited < fuel →
      ∃ result finalVisited,
        gpdtFuelList fuel cache deps visited = some (result, finalVisited) ∧
        (∀ x, x ∈ visited → x ∈ finalVisited) ∧
        newKeyCount cache finalVisited ≤ newKeyCount cache visited) := by
  induction fuel with
  | zero =>
    constructor
    · intro cache providerName visited h
      exact absurd h (Nat.not_lt_zero _)
    · intro cache deps visited h
      exact absurd h (Nat.not_lt_zero _)
  | succ f ih =>
    have hP : ∀ cache providerName visited, newKeyCount cache visited < f + 1 →
        ∃ result finalVisited,
          gpdtFuel (f + 1) cache providerName visited = some (result, finalVisited) ∧
          (∀ x, x ∈ visited → x ∈ finalVisited) ∧
          newKeyCount cache finalVisited ≤ newKeyCount cache visited := by
      intro cache providerName visited hcount
      by_cases hvis : visited.contains providerName = true
      · refine ⟨[], visited, ?_, fun x hx => hx, Nat.le_refl _⟩
        simp only [gpdtFuel]
        rw [if_pos hvis]
      · have hvis' : visited.contains providerName = false := by
          simpa using hvis
        cases hlook : cacheLookup cache providerName with
        | none =>
          refine ⟨[], providerName :: visited, ?_, fun x hx => List.mem_cons_of_mem _ hx,
            newKeyCount_cons_le _ _ _⟩
          simp only [gpdtFuel]
          rw [if_neg hvis]
          simp only [hlook]
        | some provider =>
          have hstrict := newKeyCount_strict cache providerName visited provider hlook hvis'
          obtain ⟨nested, v2, heq, hsub, hle⟩ :=
            ih.2 cache provider.dependencies (providerName :: visited) (by omega)
          refine ⟨jsSetDedup (provider.dependencies ++ nested), v2, ?_,
            fun x hx => hsub x (List.mem_cons_of_mem _ hx), le_trans hle (by omega)⟩
          simp only [gpdtFuel]
          rw [if_neg hvis]
          simp only [hlook, heq]
    refine ⟨hP, ?_⟩
    intro cache deps
    induction deps with
    | nil =>
      intro visited hcount
      exact ⟨[], visited, by simp only [gpdtFuelList], fun x hx => hx, Nat.le_refl _⟩
    | cons dep rest ihl =>
      intro visited hcount
      obtain ⟨d1, v1, h1, hs1, hl1⟩ := hP cache dep visited hcount
      obtain ⟨d2, v2, h2, hs2, hl2⟩ := ihl v1 (by omega)
      refine ⟨d1 ++ d2, v2, ?_, fun x hx => hs2 x (hs1 x hx), le_trans hl2 hl1⟩
      simp only [gpdtFuelList, h1, h2]

/-- C9: the provider dependency-tree recursion terminates for every
starting provider name and every finite provider cache — including
cyclic dependency relations — because each level of descent visits a
previously unvisited cache key; `newKeyCount cache visited + 1` units of
fuel therefore always produce a result instead of running out. -/
theorem getProviderDependencyTree_terminates (cache : List (String × ProviderMetadata))
    (providerName : String) (visited : List String) :
    (gpdtFuel (newKeyCount cache visited + 1) cache providerName visited).isSome = true := by
  obtain ⟨r, v, heq, -, -⟩ :=
    (gpdtFuel_adequate (newKeyCount cache visited + 1)).1 cache providerName visited (by omega)
  rw [heq]
  rfl

theorem jsSetDedupAux_not_mem_seen (l : List String) (seen : List String) (a : String)
    (h : a ∈ jsSetDedupAux l seen) : a ∉ seen := by
  induction l generalizing seen with
  | nil => simp [jsSetDedupAux] at h
  | cons x xs ih =>
    rw [jsSetDedupAux] at h
    cases hc : seen.contains x with
    | true =>
      rw [hc] at h
      simp only [if_true] at h
      exact ih seen h
    | false =>
      rw [hc] at h
      simp only [Bool.false_eq_true, if_false] at h
      rcases List.mem_cons.mp h with rfl | h'
      · exact not_mem_of_contains_eq_false hc
      · intro habs
        exact ih (x :: seen) h' (List.mem_cons_of_mem _ habs)

theorem jsSetDedupAux_nodup (l : List String) (seen : List String) :
    (jsSetDedupAux l seen).Nodup := by
  induction l generalizing seen with
  | nil => simp [jsSetDedupAux]
  | cons x xs ih =>
    rw [jsSetDedupAux]
    cases hc : seen.contains x with
    | true =>
      simp only [if_true]
      exact ih seen
    | false =>
      simp only [Bool.false_eq_true, if_false]
      refine List.nodup_cons.mpr ⟨?_, ih (x :: seen)⟩
      intro habs
      exact jsSetDedupAux_not_mem_seen _ _ _ habs (List.mem_cons_self _ _)

theorem jsSetDedup_nodup (l : List String) : (jsSetDedup l).Nodup :=
  jsSetDedupAux_nodup l []

/-- C10: every list the provider dependency-tree recursion returns is
duplicate-free (its non-trivial results pass through the `new Set`
deduplication), so after single-file enrichment every Provider's
dependencies list contains each name at most once. -/
theorem getProviderDependencyTree_nodup (cache : List (String × ProviderMetadata)) :
    (∀ fuel providerName visited result finalVisited,
       gpdtFuel fuel cache providerName visited = some (result, finalVisited) → result.Nodup) ∧
    (∀ moduleCache module provider,
       provider ∈ (enrichWithSecondLevelDependencies moduleCache cache module).providers →
       provider.dependencies.Nodup) := by
  have h1 : ∀ fuel providerName visited result finalVisited,
      gpdtFuel fuel cache providerName visited = some (result, finalVisited) → result.Nodup := by
    intro fuel providerName visited result finalVisited h
    cases fuel with
    | zero =>
      simp only [gpdtFuel] at h
      exact Option.noConfusion h
    | succ f =>
      simp only [gpdtFuel] at h
      by_cases hvis : visited.contains providerName = true
      · rw [if_pos hvis] at h
        cases h
        exact List.nodup_nil
      · rw [if_neg hvis] at h
        cases hlook : cacheLookup cache providerName with
        | none =>
          rw [hlook] at h
          cases h
          exact List.nodup_nil
        | some provider =>
          simp only [hlook] at h
          cases hlist : gpdtFuelList f cache provider.dependencies (providerName :: visited) with
          | none =>
            rw [hlist] at h
            exact Option.noConfusion h
          | some pr =>
            obtain ⟨nested, v2⟩ := pr
            rw [hlist] at h
            cases h
            exact jsSetDedup_nodup _
  refine ⟨h1, ?_⟩
  intro moduleCache module provider hmem
  simp only [enrichWithSecondLevelDependencies] at hmem
  rcases List.mem_map.mp hmem with ⟨p, hp, rfl⟩
  show ((getProviderDependencyTree cache p.name []).1 : List String).Nodup
  unfold getProviderDependencyTree
  cases hg : gpdtFuel (newKeyCount cache [] + 1) cache p.name [] with
  | none => simp [hg]
  | some pr =>
    obtain ⟨r, v⟩ := pr
    simp only [hg, Option.getD_some]
    exact h1 _ _ _ _ _ hg

/-- Witness for C10 at the cyclic two-provider cache. -/
theorem getProviderDependencyTree_nodup_witness :
    (["SvcB", "SvcA"] : List String).Nodup ∧
    ({ svcA with dependencies := (getProviderDependencyTree cyclicCache "SvcA" []).1 } :
      ProviderMetadata).dependencies.Nodup := by
  constructor
  · exact (getProviderDependencyTree_nodup cyclicCache).1 3 "SvcA" [] ["SvcB", "SvcA"]
      ["SvcB", "SvcA"]
      (by simp [gpdtFuel, gpdtFuelList, cacheLookup, cyclicCache, svcA, svcB, jsSetDedup,
        jsSetDedupAux])
  · exact (getProviderDependencyTree_nodup cyclicCache).2 [] modForEnrich _
      (by simp [enrichWithSecondLevelDependencies, modForEnrich, svcA])

/-! ## Linker lemmas for C1 and C2 -/

theorem linkImport_name (modules : List ModuleMetadata) (imp : ImportMetadata) :
    (linkImport modules imp).name = imp.name := by
  unfold linkImport
  cases modules.find? (fun m => m.name == imp.name) <;> rfl

theorem allProviders_resolve (modules : List ModuleMetadata) :
    allProviders (resolveModuleDependencies modules) =
      (allProviders modules).map (resolveProviderDeps modules) := by
  unfold allProviders resolveModuleDependencies
  rw [List.map_map, List.map_flatten, List.map_map]
  rfl

theorem findProviderByName_resolve (modules : List ModuleMetadata) (x : String) :
    findProviderByName (resolveModuleDependencies modules) x =
      (findProviderByName modules x).map (resolveProviderDeps modules) := by
  rw [findProviderByName_eq_find?, findProviderByName_eq_find?, allProviders_resolve,
    List.find?_map]
  rfl

theorem resolveProviderDependencyEntry_resolve (modules : List ModuleMetadata) (x : String) :
    resolveProviderDependencyEntry (resolveModuleDependencies modules) x =
      resolveProviderDependencyEntry modules x := by
  unfold resolveProviderDependencyEntry
  rw [findProviderByName_resolve]
  cases findProviderByName modules x <;> rfl

theorem resolveProviderDependencyEntry_idem (modules : List ModuleMetadata)
    (h : ∀ q ∈ allProviders modules, q.provide = some q.name) (x : String) :
    resolveProviderDependencyEntry modules (resolveProviderDependencyEntry modules x) =
      resolveProviderDependencyEntry modules x := by
  unfold resolveProviderDependencyEntry
  simp only [findProviderByName_eq_find?]
  cases hf : (allProviders modules).find? (fun q => q.name == x || q.provide == some x) with
  | none => simp only [hf]
  | some q =>
    simp only [hf]
    have hqmem := List.mem_of_find?_eq_some hf
    cases hg : (allProviders modules).find?
        (fun q2 => q2.name == q.name || q2.provide == some q.name) with
    | none =>
      exfalso
      have := List.find?_eq_none.mp hg q hqmem
      simp at this
    | some q2 =>
      simp only [hg]
      have hq2mem := List.mem_of_find?_eq_some hg
      have hpred := List.find?_some hg
      have hq2 := h q2 hq2mem
      rcases (by simpa using hpred : q2.name = q.name ∨ q2.provide = some q.name) with h' | h'
      · exact h'
      · rw [hq2] at h'
        exact Option.some.inj h'

theorem resolveProviderDeps_idem (modules : List ModuleMetadata)
    (h : ∀ q ∈ allProviders modules, q.provide = some q.name) (p : ProviderMetadata) :
    resolveProviderDeps modules (resolveProviderDeps modules p) = resolveProviderDeps modules p := by
  have hd : (p.dependencies.map (resolveProviderDependencyEntry modules)).map
      (resolveProviderDependencyEntry modules) =
      p.dependencies.map (resolveProviderDependencyEntry modules) := by
    rw [List.map_map]
    apply List.map_congr_left
    intro x _
    exact resolveProviderDependencyEntry_idem modules h x
  simp only [resolveProviderDeps]
  rw [hd]

theorem resolveProviderDeps_resolve (modules : List ModuleMetadata) (p : ProviderMetadata) :
    resolveProviderDeps (resolveModuleDependencies modules) p = resolveProviderDeps modules p := by
  have hd : p.dependencies.map (resolveProviderDependencyEntry (resolveModuleDependencies modules)) =
      p.dependencies.map (resolveProviderDependencyEntry modules) := by
    apply List.map_congr_left
    intro x _
    exact resolveProviderDependencyEntry_resolve modules x
  simp only [resolveProviderDeps]
  rw [hd]

theorem find?_module_resolve (modules : List ModuleMetadata) (x : String) :
    (resolveModuleDependencies modules).find? (fun m => m.name == x) =
      (modules.find? (fun m => m.name == x)).map (resolveModule modules) := by
  unfold resolveModuleDependencies
  rw [List.find?_map]
  rfl

theorem linkImport_idem (modules : List ModuleMetadata)
    (h : ∀ q ∈ allProviders modules, q.provide = some q.name) (imp : ImportMetadata) :
    linkImport (resolveModuleDependencies modules) (linkImport modules imp) =
      linkImport modules imp := by
  have hp : ∀ t : ModuleMetadata,
      (t.providers.map (resolveProviderDeps modules)).map
        (resolveProviderDeps (resolveModuleDependencies modules)) =
      t.providers.map (resolveProviderDeps modules) := by
    intro t
    rw [List.map_map]
    apply List.map_congr_left
    intro q _
    show resolveProviderDeps (resolveModuleDependencies modules) (resolveProviderDeps modules q) =
      resolveProviderDeps modules q
    rw [resolveProviderDeps_resolve]
    exact resolveProviderDeps_idem modules h q
  conv_lhs => rw [linkImport]
  simp only [linkImport_name, find?_module_resolve]
  cases hf : modules.find? (fun m => m.name == imp.name) with
  | none =>
    simp only [linkImport, hf, Option.map]
  | some t =>
    simp only [linkImport, hf, Option.map, resolveModule]
    rw [hp t]

theorem resolveModuleDependencies_idempotent_aux (modules : List ModuleMetadata)
    (hall : ∀ q ∈ allProviders modules, q.provide = some q.name) (m : ModuleMetadata) :
    resolveModule (resolveModuleDependencies modules) (resolveModule modules m) =
      resolveModule modules m := by
  have hi : (m.imports.map (linkImport modules)).map
      (linkImport (resolveModuleDependencies modules)) = m.imports.map (linkImport modules) := by
    rw [List.map_map]
    apply List.map_congr_left
    intro imp _
    exact linkImport_idem modules hall imp
  have hpv : (m.providers.map (resolveProviderDeps modules)).map
      (resolveProviderDeps (resolveModuleDependencies modules)) =
      m.providers.map (resolveProviderDeps modules) := by
    rw [List.map_map]
    apply List.map_congr_left
    intro q _
    show resolveProviderDeps (resolveModuleDependencies modules) (resolveProviderDeps modules q) =
      resolveProviderDeps modules q
    rw [resolveProviderDeps_resolve]
    exact resolveProviderDeps_idem modules hall q
  simp only [resolveModule]
  rw [hi, hpv]

/-- C1: re-running the cross-file graph linker over a mapping whose
providers carry their own name as `provide` token — which holds for every
provider the extractor ever produces, see `parseProvider_provide_eq_name`
— returns the mapping unchanged: every Import's `path` and `module`
snapshot and every Provider's `dependencies` list are identical after the
second pass. -/
theorem resolveModuleDependencies_idempotent (modules : List ModuleMetadata)
    (h : ∀ m ∈ modules, ∀ p ∈ m.providers, p.provide = some p.name) :
    resolveModuleDependencies (resolveModuleDependencies modules) =
      resolveModuleDependencies modules := by
  have hall : ∀ q ∈ allProviders modules, q.provide = some q.name := by
    intro q hq
    unfold allProviders at hq
    rcases List.mem_flatten.mp hq with ⟨l, hl, hql⟩
    rcases List.mem_map.mp hl with ⟨m, hm, rfl⟩
    exact h m hm q hql
  have hfix : ∀ m', m' ∈ resolveModuleDependencies modules →
      resolveModule (resolveModuleDependencies modules) m' = m' := by
    intro m' hm'
    rcases List.mem_map.mp (by simpa [resolveModuleDependencies] using hm') with ⟨m, hm, rfl⟩
    exact resolveModuleDependencies_idempotent_aux modules hall m
  calc (resolveModuleDependencies (resolveModuleDependencies modules))
      = (resolveModuleDependencies modules).map
          (resolveModule (resolveModuleDependencies modules)) := rfl
    _ = (resolveModuleDependencies modules).map id := List.map_congr_left hfix
    _ = resolveModuleDependencies modules := List.map_id _

/-- Every provider the parser produces carries its own canonical name as
`provide` token (bare identifiers copy the identifier, object literals
copy the `provide` value into both fields), which is the invariant the
idempotence of the linker rests on. -/
theorem parseProvider_provide_eq_name (sf : SourceFile) (element : Expr)
    (meta : ProviderMetadata) (h : parseProvider sf element = some meta) :
    meta.provide = some meta.name := by
  cases element with
  | ident text =>
    cases h
    rfl
  | objLit props =>
    simp only [parseProvider, parseProviderObjectLiteral] at h
    by_cases hp : truthy (getPropertyValue props "provide") = true
    · rw [if_pos hp] at h
      cases h
      rfl
    · rw [if_neg hp] at h
      exact Option.noConfusion h
  | strLit t => exact Option.noConfusion h
  | numLit t => exact Option.noConfusion h
  | call c a => exact Option.noConfusion h
  | propAccess o n => exact Option.noConfusion h
  | arrayLit es => exact Option.noConfusion h
  | arrow b => exact Option.noConfusion h
  | otherExpr => exact Option.noConfusion h

/-- Witness for C1 at the concrete two-module mapping. -/
theorem resolveModuleDependencies_idempotent_witness :
    resolveModuleDependencies (resolveModuleDependencies modulesAB) =
      resolveModuleDependencies modulesAB :=
  resolveModuleDependencies_idempotent modulesAB (by decide)

theorem find?_name_of_mem_nodup (modules : List ModuleMetadata) (tgt : ModuleMetadata)
    (hnodup : (modules.map (fun m => m.name)).Nodup) (hm : tgt ∈ modules) :
    modules.find? (fun m => m.name == tgt.name) = some tgt := by
  induction modules with
  | nil => cases hm
  | cons m rest ih =>
    rcases List.mem_cons.mp hm with rfl | hm'
    · exact List.find?_cons_of_pos _ (by simp)
    · have hbeq : (m.name == tgt.name) = false := by
        simp only [beq_eq_false_iff_ne, ne_eq]
        intro he
        have h1 : m.name ∈ rest.map (fun m2 => m2.name) := by
          rw [he]
          exact List.mem_map_of_mem _ hm'
        exact (List.nodup_cons.mp hnodup).1 h1
      simp only [List.find?, hbeq]
      exact ih (List.nodup_cons.mp hnodup).2 hm'

/-- C2: after cross-file import linking (module names being unique, as
map keys are), an Import whose name equals some module's name gets
`path` set to that module's `filePath` and a `module` snapshot holding
exactly that module's name, providers (as they stand in the linked
mapping) and controllers; an Import matching no module ends with `path`
and `module` unset.  The third conjunct ties the per-import function to
the full linking pass. -/
theorem linkImport_resolves_imports (modules : List ModuleMetadata) (imp : ImportMetadata)
    (hnodup : (modules.map (fun m => m.name)).Nodup) :
    (∀ tgt, tgt ∈ modules → tgt.name = imp.name →
       linkImport modules imp = { imp with
         path := tgt.filePath,
         module := some { name := tgt.name,
                          providers := tgt.providers.map (resolveProviderDeps modules),
                          controllers := tgt.controllers } }) ∧
    ((∀ tgt, tgt ∈ modules → tgt.name ≠ imp.name) →
       linkImport modules imp = { imp with path := none, module := none }) ∧
    (resolveModuleDependencies modules).map (fun m => m.imports) =
      modules.map (fun m => m.imports.map (linkImport modules)) := by
  refine ⟨?_, ?_, ?_⟩
  · intro tgt htm hname
    have hf : modules.find? (fun m => m.name == imp.name) = some tgt := by
      rw [← hname]
      exact find?_name_of_mem_nodup modules tgt hnodup htm
    simp only [linkImport, hf]
  · intro hno
    have hf : modules.find? (fun m => m.name == imp.name) = none := by
      apply List.find?_eq_none.mpr
      intro t ht
      simp only [beq_iff_eq]
      exact hno t ht
    simp only [linkImport, hf]
  · unfold resolveModuleDependencies
    rw [List.map_map]
    rfl

/-- Witness for C2: linking the import of `ModuleB` inside the concrete
two-module mapping. -/
theorem linkImport_resolves_imports_witness :
    linkImport modulesAB importOfB = { importOfB with
      path := moduleB.filePath,
      module := some { name := moduleB.name,
                       providers := moduleB.providers.map (resolveProviderDeps modulesAB),
                       controllers := moduleB.controllers } } :=
  (linkImport_resolves_imports modulesAB importOfB (by decide)).1 moduleB (by decide) rfl

/-- Witness for C7: `TypeOrmModule.forFeature([EntityA, EntityB, EntityC])`
adds exactly 3 and an unrecognized bare-identifier call adds 0. -/
theorem extractEntityCount_contribution_witness :
    extractEntityCount [ObjectProperty.assign (.ident "imports")
        (.arrayLit [Expr.call (.propAccess (.ident "TypeOrmModule") "forFeature")
          [.arrayLit entsThree]])] =
      extractEntityCount [ObjectProperty.assign (.ident "imports") (.arrayLit [])] + 3 ∧
    extractEntityCount [ObjectProperty.assign (.ident "imports")
        (.arrayLit [Expr.call (.ident "SomeCall") []])] =
      extractEntityCount [ObjectProperty.assign (.ident "imports") (.arrayLit [])] :=
  extractEntityCount_contribution [] [] [] [] "TypeOrmModule" entsThree [] (.ident "SomeCall") []
    (Or.inl rfl) (by decide) (fun obj propName hcontra => nomatch hcontra)
